import Mathlib

set_option maxRecDepth 100000

/-!
Shallow embedding of `src/GeometryPlacer.ts` (classes `UnpackedSchematic` and
`GeometryPlacer`).

Modelling conventions:
* JavaScript numbers holding block types, sizes, tile indices and array
  indices are modelled as `Nat` (coordinates, which the source compares
  against 0, as `Int`).
* The occurrence-count map `blockCounts` stores JavaScript numbers that can
  become `NaN` (because `get(type)! + 1` is evaluated on `undefined` when the
  key is absent); its values are modelled by `JsNum`.
* The cell array `schematic` is a JavaScript array that can contain holes
  (when `setBlock` writes past the current length); it is modelled as
  `List (Option Nat)` where `none` is a hole / `undefined`.
* UV floats are modelled as exact rationals represented by unreduced
  integer fractions (`Frac`), so that every arithmetic operation is
  kernel-computable; two fractions denote the same number exactly when
  `fracEq` (cross multiplication) holds, and every comparison the source
  performs on floats is modelled with `fracEq`.  The inset `0.00001` is the
  exact rational `1/100000`.
* JavaScript `Map` objects are modelled as insertion-ordered association
  lists; `set` updates in place when the key is present and appends
  otherwise, matching `Map.prototype.set`.
* Methods that `throw` return the post-mutation state together with
  `Option String`: `some msg` is a thrown error.  Effects that the source
  performs before the `throw` are kept (they are observable on the object).
-/

/-- Value stored in the `blockCounts` map: a JavaScript number that is either
an ordinary natural number or `NaN`. -/
inductive JsNum where
  | nan : JsNum
  | num : Nat → JsNum
deriving DecidableEq

/-- Exact rational number as an unreduced fraction of integers (denominator
nonzero in every use below).  The value denoted is `num / den`. -/
structure Frac where
  num : Int
  den : Int
deriving DecidableEq

/-- Fraction with value `n`. -/
def fOfNat (n : Nat) : Frac :=
  ⟨n, 1⟩

/-- Exact rational addition. -/
def fAdd (a b : Frac) : Frac :=
  ⟨a.num * b.den + b.num * a.den, a.den * b.den⟩

/-- Exact rational subtraction. -/
def fSub (a b : Frac) : Frac :=
  ⟨a.num * b.den - b.num * a.den, a.den * b.den⟩

/-- Exact rational division. -/
def fDiv (a b : Frac) : Frac :=
  ⟨a.num * b.den, a.den * b.num⟩

/-- Value equality of two fractions (cross multiplication); this is the
model of `==` between the modelled float values. -/
def fracEq (a b : Frac) : Bool :=
  a.num * b.den == b.num * a.den

/-- Pointwise value equality of two UV tables. -/
def uvTableEq (a b : List Frac) : Bool :=
  a.length == b.length && (a.zip b).all fun p => fracEq p.1 p.2

/-- JavaScript `x + 1` where `x` is `map.get(key)!`: `undefined + 1` and
`NaN + 1` are both `NaN`. -/
def jsIncr : Option JsNum → JsNum
  | none => .nan
  | some .nan => .nan
  | some (.num n) => .num (n + 1)

/-- Association-list model of a JavaScript `Map` lookup (`Map.get`). -/
def amGet {α : Type} (m : List (Nat × α)) (k : Nat) : Option α :=
  (m.find? (fun p => p.1 == k)).map Prod.snd

/-- Association-list model of `Map.has`. -/
def amHas {α : Type} (m : List (Nat × α)) (k : Nat) : Bool :=
  (m.find? (fun p => p.1 == k)).isSome

/-- Association-list model of `Map.set`: update in place when the key is
present (preserving insertion order), append otherwise. -/
def amSet {α : Type} (m : List (Nat × α)) (k : Nat) (v : α) : List (Nat × α) :=
  if amHas m k then m.map (fun p => if p.1 == k then (k, v) else p)
  else m ++ [(k, v)]

/-- Shared counting prologue of `setBlock` (lines 40-43) and `pushBlock`
(lines 52-55):
`if (!this.blockCounts.has(type) && type != 0) this.blockCounts.set(type, 0);`
`this.blockCounts.set(type, this.blockCounts.get(type)! + 1);` -/
def countBlock (m : List (Nat × JsNum)) (type : Nat) : List (Nat × JsNum) :=
  let m1 := if !amHas m type && type != 0 then amSet m type (.num 0) else m
  amSet m1 type (jsIncr (amGet m1 type))

/-- Write `v` at index `i` of a JavaScript array: in-range indices are
overwritten, past-the-end indices extend the array with holes. -/
def jsArrayWrite (l : List (Option Nat)) (i : Nat) (v : Nat) : List (Option Nat) :=
  if i < l.length then l.set i (some v)
  else l ++ List.replicate (i - l.length) none ++ [some v]

/-- State of an `UnpackedSchematic` object (lines 14-140). -/
structure Schematic where
  sizeX : Nat
  sizeY : Nat
  sizeZ : Nat
  schematic : List (Option Nat)
  blockCounts : List (Nat × JsNum)
  textureData : Option String
  textureCount : Option Nat
  textureDictionary : Option (List (Nat × List (String × Nat)))
deriving DecidableEq

/-- Constructor (lines 31-37): dimensions set, empty cell array, empty
counts, texture fields unset. -/
def mkGrid (sx sy sz : Nat) : Schematic :=
  ⟨sx, sy, sz, [], [], none, none, none⟩

/-- Lines 65-67: `x + y * this.sizeX + z * this.sizeX * this.sizeY`. -/
def getSchematicLocation (s : Schematic) (x y z : Int) : Int :=
  x + y * s.sizeX + z * s.sizeX * s.sizeY

/-- Lines 39-49, `setBlock`: counts first, then the bounds check (a failed
call has already mutated `blockCounts`), then the cell write. -/
def setBlock (s : Schematic) (type : Nat) (x y z : Int) : Schematic × Option String :=
  let s1 := { s with blockCounts := countBlock s.blockCounts type }
  if x < 0 ∨ (s.sizeX : Int) ≤ x ∨ y < 0 ∨ (s.sizeY : Int) ≤ y ∨ z < 0 ∨ (s.sizeZ : Int) ≤ z then
    (s1, some "Block is out of bounds!")
  else
    ({ s1 with
        schematic := jsArrayWrite s1.schematic (getSchematicLocation s x y z).toNat type },
      none)

/-- Lines 51-62, `pushBlock`: counts first, then the strictly-greater
capacity check, then the append. -/
def pushBlock (s : Schematic) (type : Nat) : Schematic × Option String :=
  let s1 := { s with blockCounts := countBlock s.blockCounts type }
  if s1.sizeX * s1.sizeY * s1.sizeZ < s1.schematic.length then
    (s1, some "Schematic is full!")
  else
    ({ s1 with schematic := s1.schematic ++ [some type] }, none)

/-- Lines 103-107, `setTextureData`: sets all three texture fields. -/
def setTextureData (s : Schematic) (texture : String) (textureCount : Nat)
    (textureMapping : List (Nat × List (String × Nat))) : Schematic :=
  { s with
      textureData := some texture
      textureCount := some textureCount
      textureDictionary := some textureMapping }

/-- One mutation of the grid: `setBlock` or `pushBlock`. -/
inductive Op where
  | set (type : Nat) (x y z : Int)
  | push (type : Nat)
deriving DecidableEq

/-- Block type argument of an operation. -/
def opType : Op → Nat
  | .set t _ _ _ => t
  | .push t => t

/-- Apply one operation. -/
def applyOp (s : Schematic) : Op → Schematic × Option String
  | .set t x y z => setBlock s t x y z
  | .push t => pushBlock s t

/-- Run a sequence of operations; the boolean is `true` when every
operation succeeded (no throw). -/
def runOps (s : Schematic) : List Op → Schematic × Bool
  | [] => (s, true)
  | op :: rest =>
    let r := applyOp s op
    let r' := runOps r.1 rest
    (r'.1, r.2.isNone && r'.2)

/-- Number of operations in a sequence whose type argument is `t`. -/
def cntOps (ops : List Op) (t : Nat) : Nat :=
  ops.countP (fun op => opType op == t)

/-- Number of cells of the array currently holding type `t`. -/
def countCells (t : Nat) (l : List (Option Nat)) : Nat :=
  l.count (some t)

/-!
Embedding of the `GeometryPlacer` class (lines 142-316).  The THREE.js side
effects are abstracted into pure data: `create` returns the list of emitted
instanced batches (type, instance count, UV attribute) in emission order and
the list of per-instance transform writes performed by the scan (type, slot
index, position), or the message of the thrown error.
-/

/-- Lines 217-230, `mapTextures`: computes the 8 UV floats of one face slot
from the tile index `stride` and writes each one only where the array still
holds the `-1` sentinel. -/
def mapTextures (textureAmount : Nat) (mapping : List Frac) (stride : Nat) (offset : Nat) :
    List Frac :=
  let u0 : Frac := fAdd (fDiv (fOfNat (stride + 1)) (fOfNat textureAmount)) ⟨1, 100000⟩
  let v0 : Frac := ⟨0, 1⟩
  let u1 : Frac := fSub (fDiv (fOfNat (stride + 1 + 1)) (fOfNat textureAmount)) ⟨1, 100000⟩
  let v1 : Frac := ⟨1, 1⟩
  let uvs : List Frac := [u1, v1, u0, v1, u1, v0, u0, v0]
  ([0, 1, 2, 3, 4, 5, 6, 7] : List Nat).foldl
    (fun acc i =>
      if fracEq (acc.getD (offset + i) ⟨0, 1⟩) ⟨-1, 1⟩ then
        acc.set (offset + i) (uvs.getD i ⟨0, 1⟩)
      else acc)
    mapping

/-- Body shared by `case "side"` and the fall-through from `case "all"`
(lines 248-252): NORTH (offset 0), EAST (8), SOUTH (32), WEST (40). -/
def mapSideFaces (tc : Nat) (m : List Frac) (v : Nat) : List Frac :=
  mapTextures tc (mapTextures tc (mapTextures tc (mapTextures tc m v 0) v 8) v 32) v 40

/-- Lines 242-278: the `switch` on one face-mapping key.  `case "all"` has no
`break` and falls through into `case "side"`; unrecognized keys (including
"sides", which the source does not handle) hit the empty `default`. -/
def applyKey (tc : Nat) (m : List Frac) (key : String) (v : Nat) : List Frac :=
  if key = "all" then mapSideFaces tc (mapTextures tc (mapTextures tc m v 16) v 24) v
  else if key = "side" then mapSideFaces tc m v
  else if key = "top" then mapTextures tc m v 16
  else if key = "bottom" then mapTextures tc m v 24
  else if key = "end" then mapTextures tc (mapTextures tc m v 16) v 24
  else if key = "front" ∨ key = "north" then mapTextures tc m v 0
  else if key = "east" then mapTextures tc m v 8
  else if key = "south" then mapTextures tc m v 32
  else if key = "west" then mapTextures tc m v 40
  else m

/-- Lines 233-293, `unwrapUVs` (the per-placer cache has no observable
effect inside one `create` call, which queries each distinct type once, so
it is not modelled).  Indexing the dictionary with an absent type yields
`undefined` and `Object.keys(undefined)` throws a `TypeError`, modelled as
the `.error` branch.  An empty entry returns `undefined` (`.ok none`).
Otherwise every key is applied to the 48-slot sentinel array in insertion
order and remaining sentinels become `0.5`. -/
def unwrapUVs (tc : Nat) (dict : List (Nat × List (String × Nat))) (blockType : Nat) :
    Except String (Option (List Frac)) :=
  match amGet dict blockType with
  | none => .error "TypeError: Cannot convert undefined to object"
  | some blockUVData =>
    if blockUVData.length = 0 then .ok none
    else
      let base : List Frac := List.replicate 48 ⟨-1, 1⟩
      let filled := blockUVData.foldl (fun acc kv => applyKey tc acc kv.1 kv.2) base
      .ok (some (filled.map fun q => if fracEq q ⟨-1, 1⟩ then ⟨1, 2⟩ else q))

/-- Lines 156-163, the `typeToUV` loop: iterate the keys of `blockCounts` in
insertion order, recording the types with a defined UV table; the first
`TypeError` aborts `create`. -/
def collectUVs (tc : Nat) (dict : List (Nat × List (String × Nat))) :
    List Nat → Except String (List (Nat × List Frac))
  | [] => .ok []
  | t :: rest =>
    match unwrapUVs tc dict t with
    | .error e => .error e
    | .ok none => collectUVs tc dict rest
    | .ok (some uv) =>
      match collectUVs tc dict rest with
      | .error e => .error e
      | .ok m => .ok ((t, uv) :: m)

/-- One emitted instanced batch (lines 169-184): block type, instance count
`blockCounts.get(blockType)!`, and the UV attribute. -/
structure Batch where
  btype : Nat
  count : JsNum
  uv : List Frac
deriving DecidableEq

/-- One `setMatrixAt` performed by the scan (lines 196-203): block type,
slot index `blockIndexes.get(blockType) ?? 0`, and the position set on the
dummy, in write order. -/
structure ScanWrite where
  btype : Nat
  slot : Nat
  x : Nat
  y : Nat
  z : Nat
deriving DecidableEq

/-- Observable outcome of `GeometryPlacer.create`. -/
structure PlaceResult where
  batches : List Batch
  writes : List ScanWrite
deriving DecidableEq

/-- Keys of `blockCounts` in insertion order (`getBlockCount().keys()`). -/
def keysOf (s : Schematic) : List Nat :=
  s.blockCounts.map Prod.fst

/-- Lines 169-184: one batch per `blockCounts` key that has a UV table,
sized `blockCounts.get(blockType)!`, emitted in key order. -/
def batchesOfUV (s : Schematic) (typeToUV : List (Nat × List Frac)) : List Batch :=
  (keysOf s).filterMap fun t =>
    (amGet typeToUV t).map fun uv => ⟨t, (amGet s.blockCounts t).getD (.num 0), uv⟩

/-- Cell values read by the scan: `getSchem()[index]` for the
`sizeX*sizeY*sizeZ` successive values of the flat index (out-of-range reads
and holes give `undefined`). -/
def cellsOf (s : Schematic) : List (Option Nat) :=
  (List.range (s.sizeX * s.sizeY * s.sizeZ)).map fun i => s.schematic.getD i none

/-- Loop coordinates of the scan in visit order: `x` outermost, `y` middle,
`z` innermost (lines 191-193). -/
def allPositions (sx sy sz : Nat) : List (Nat × Nat × Nat) :=
  (List.range sx).flatMap fun x =>
    (List.range sy).flatMap fun y =>
      (List.range sz).map fun z => (x, y, z)

/-- Lines 191-208, the scan body: for each (cell value, loop position) pair
in visit order, if the cell holds a type with an emitted mesh, write a
transform at slot `blockIndexes.get(blockType) ?? 0` and bump that
counter. -/
def scanGo (em : Nat → Bool) :
    List (Option Nat × Nat × Nat × Nat) → List (Nat × Nat) → List ScanWrite →
      List ScanWrite
  | [], _, ws => ws
  | (cell, px, py, pz) :: rest, bi, ws =>
    match cell with
    | none => scanGo em rest bi ws
    | some t =>
      if em t then
        let cur := (amGet bi t).getD 0
        scanGo em rest (amSet bi t (cur + 1)) (ws ++ [⟨t, cur, px, py, pz⟩])
      else scanGo em rest bi ws

/-- Transform writes produced by the scan of lines 186-208: the mesh lookup
succeeds exactly for the types in `typeToUV` (the types given meshes by the
loop of lines 169-184). -/
def scanOf (s : Schematic) (typeToUV : List (Nat × List Frac)) : List ScanWrite :=
  scanGo (fun t => (amGet typeToUV t).isSome)
    ((cellsOf s).zip (allPositions s.sizeX s.sizeY s.sizeZ)) [] []

/-- Truthiness of `getTextureCount()`: `undefined`, `0` (and `NaN`) are
falsy. -/
def jsFalsyNum : Option Nat → Bool
  | none => true
  | some n => n == 0

/-- Truthiness of `getTextureData()`: `undefined` and `""` are falsy. -/
def jsFalsyStr : Option String → Bool
  | none => true
  | some s => s == ""

/-- Lines 146-215, `GeometryPlacer.create`: the texture presence check
(line 147, any falsy field fails), the UV collection loop, the batch
emission loop, and the placement scan. -/
def create (s : Schematic) : Except String PlaceResult :=
  if jsFalsyNum s.textureCount || jsFalsyStr s.textureData || s.textureDictionary.isNone then
    .error "Texture data is not set!"
  else
    match collectUVs (s.textureCount.getD 0) (s.textureDictionary.getD []) (keysOf s) with
    | .error e => .error e
    | .ok typeToUV => .ok ⟨batchesOfUV s typeToUV, scanOf s typeToUV⟩

/-- JavaScript comparison `slot < count` against a possibly-NaN instance
count: any comparison with `NaN` is false. -/
def jsSlotOk (slot : Nat) : JsNum → Bool
  | .nan => false
  | .num n => slot < n

/-- JavaScript comparison `m <= count` against a possibly-NaN count. -/
def jsLeNum (m : Nat) : JsNum → Bool
  | .nan => false
  | .num n => m ≤ n

/-- Whether an `Except` result is a thrown error. -/
def isErr {ε α : Type} : Except ε α → Bool
  | .error _ => true
  | .ok _ => false

/-- Batches of a `create` outcome (none when it threw). -/
def batchesOf : Except String PlaceResult → List Batch
  | .ok r => r.batches
  | .error _ => []

/-- Payload of an `unwrapUVs` result that returned a table (used to compare
result tables of different mappings). -/
def uvTableOf : Except String (Option (List Frac)) → List Frac
  | .ok (some l) => l
  | _ => []

/-!
Concrete states used by individual claims.
-/

/-- Grid of claim C1: 2 x 2 x 1, `setBlock(7, 1, 0, 0)`, atlas with one tile
and type 7 mapped to all faces. -/
def sC1 : Schematic :=
  setTextureData (setBlock (mkGrid 2 2 1) 7 1 0 0).1 "a" 1 [(7, [("all", 0)])]

/-- Grid of claim C5's counterexample: capacity 1, two successful appends of
type 5 (the array is allowed to reach capacity + 1 elements). -/
def sC5 : Schematic :=
  (runOps (mkGrid 1 1 1) [Op.push 5, Op.push 5]).1

/-- Grid of claim C9's counterexample: one `pushBlock(0)`, so `blockCounts`
maps 0 to `NaN`, with a non-empty face mapping for type 0. -/
def sC9 : Schematic :=
  setTextureData (pushBlock (mkGrid 1 1 1) 0).1 "x" 1 [(0, [("all", 0)])]

/-- Grid built by a run of mutations followed by `setTextureData`: the shape
of every grid that reaches `create` through the public API. -/
def builtGrid (sx sy sz : Nat) (ops : List Op) (td : String) (tc : Nat)
    (dict : List (Nat × List (String × Nat))) : Schematic :=
  setTextureData (runOps (mkGrid sx sy sz) ops).1 td tc dict

/-- Invariant tying the occurrence count of a type to the number of cells
holding it: no entry means no such cell, a numeric count bounds the number
of cells, and a nonzero type never carries `NaN`. -/
def CellInv (t : Nat) (s : Schematic) : Prop :=
  match amGet s.blockCounts t with
  | none => countCells t s.schematic = 0
  | some JsNum.nan => False
  | some (JsNum.num k) => countCells t s.schematic ≤ k

/-- Grid of claim C9's witness: one `pushBlock(5)` on a 1 x 1 x 1 grid with
type 5 mapped on all faces. -/
def sW9 : Schematic :=
  builtGrid 1 1 1 [Op.push 5] "x" 1 [(5, [("all", 0)])]

/-- Outcome of `create sW9`: one batch of type 5 with one instance, one
transform write at slot 0 for the cell at (0, 0, 0). -/
def rW9 : PlaceResult :=
  ⟨[⟨5, JsNum.num 1, uvTableOf (unwrapUVs 1 [(5, [("all", 0)])] 5)⟩],
    [⟨5, 0, 0, 0, 0⟩]⟩

/-- Grid of claim C8's witness, missing-entry side: type 3 is present in the
counts but the face-mapping dictionary has no entry at all for it. -/
def sW8a : Schematic :=
  setTextureData (pushBlock (mkGrid 1 1 1) 3).1 "x" 1 []

/-- Grid of claim C8's witness, empty-entry side: type 3 has a
present-but-empty dictionary entry. -/
def sW8b : Schematic :=
  setTextureData (pushBlock (mkGrid 1 1 1) 3).1 "x" 1 [(3, [])]

/-- Tile-to-UV formula of the specification, left edge:
`u0 = (tileIndex+1)/tileCount + eps` with `eps = 1e-5`. -/
def specTileU0 (tileIndex tileCount : Nat) : Frac :=
  fAdd (fDiv ⟨(tileIndex : Int) + 1, 1⟩ ⟨(tileCount : Int), 1⟩) ⟨1, 100000⟩

/-- Tile-to-UV formula of the specification, right edge:
`u1 = (tileIndex+2)/tileCount - eps`. -/
def specTileU1 (tileIndex tileCount : Nat) : Frac :=
  fSub (fDiv ⟨(tileIndex : Int) + 2, 1⟩ ⟨(tileCount : Int), 1⟩) ⟨1, 100000⟩

/-- Vertex order of one face slot per the specification:
`(u1,v1), (u0,v1), (u1,v0), (u0,v0)` with `v0 = 0, v1 = 1`. -/
def specSlotUVs (u0 u1 : Frac) : List Frac :=
  [u1, ⟨1, 1⟩, u0, ⟨1, 1⟩, u1, ⟨0, 1⟩, u0, ⟨0, 1⟩]

/-- Expected 48-float table of claim C7 for mapping
`[("top", 0), ("side", 1)]` with tileCount 4: face slot order NORTH, EAST,
TOP, BOTTOM, SOUTH, WEST (offsets 0, 8, 16, 24, 32, 40); the vertical slots
from tile 1, the top slot from tile 0, the bottom slot all midpoint `0.5`. -/
def c7Expected : List Frac :=
  specSlotUVs (specTileU0 1 4) (specTileU1 1 4) ++
    specSlotUVs (specTileU0 1 4) (specTileU1 1 4) ++
    specSlotUVs (specTileU0 0 4) (specTileU1 0 4) ++
    List.replicate 8 (⟨1, 2⟩ : Frac) ++
    specSlotUVs (specTileU0 1 4) (specTileU1 1 4) ++
    specSlotUVs (specTileU0 1 4) (specTileU1 1 4)

/-!
Helper lemmas about `pushBlock`.
-/

/-- Successful append: the capacity check `length > sizeX*sizeY*sizeZ` is
false whenever the array has at most `capacity` elements. -/
theorem pushBlock_ok (s : Schematic) (t : Nat)
    (h : s.schematic.length ≤ s.sizeX * s.sizeY * s.sizeZ) :
    pushBlock s t =
      ({ s with blockCounts := countBlock s.blockCounts t,
                schematic := s.schematic ++ [some t] }, none) := by
  simp only [pushBlock]
  rw [if_neg]
  omega

/-- Failing append: the state keeps the already-performed count increment
and an unchanged cell array. -/
theorem pushBlock_fail (s : Schematic) (t : Nat)
    (h : s.sizeX * s.sizeY * s.sizeZ < s.schematic.length) :
    pushBlock s t =
      ({ s with blockCounts := countBlock s.blockCounts t }, some "Schematic is full!") := by
  simp only [pushBlock]
  rw [if_pos]
  exact h

/-- Neither mutation changes the grid dimensions. -/
theorem applyOp_sizes (s : Schematic) (op : Op) :
    (applyOp s op).1.sizeX = s.sizeX ∧ (applyOp s op).1.sizeY = s.sizeY ∧
      (applyOp s op).1.sizeZ = s.sizeZ := by
  cases op <;> simp only [applyOp, setBlock, pushBlock] <;> split <;> simp

/-- Dimensions are invariant under a whole run. -/
theorem runOps_sizes (ops : List Op) :
    ∀ s : Schematic,
      (runOps s ops).1.sizeX = s.sizeX ∧ (runOps s ops).1.sizeY = s.sizeY ∧
        (runOps s ops).1.sizeZ = s.sizeZ := by
  induction ops with
  | nil => intro s; exact ⟨rfl, rfl, rfl⟩
  | cons op rest ih =>
    intro s
    obtain ⟨h1, h2, h3⟩ := applyOp_sizes s op
    obtain ⟨g1, g2, g3⟩ := ih (applyOp s op).1
    exact ⟨by rw [runOps]; rw [g1, h1], by rw [runOps]; rw [g2, h2],
      by rw [runOps]; rw [g3, h3]⟩

/-- Bookkeeping for a run of appends that stays within `capacity + 1`
elements: every append succeeds and each one grows the array by one. -/
theorem runOps_pushes (ts : List Nat) :
    ∀ s : Schematic,
      s.schematic.length + ts.length ≤ s.sizeX * s.sizeY * s.sizeZ + 1 →
      (runOps s (ts.map Op.push)).2 = true ∧
      (runOps s (ts.map Op.push)).1.schematic.length = s.schematic.length + ts.length := by
  induction ts with
  | nil => intro s _; simp [runOps]
  | cons a ts ih =>
    intro s h
    simp only [List.length_cons] at h
    have hok := pushBlock_ok s a (by omega)
    have ih' := ih { s with blockCounts := countBlock s.blockCounts a,
                            schematic := s.schematic ++ [some a] }
      (by simp; omega)
    obtain ⟨h1, h2⟩ := ih'
    simp only [List.map_cons, runOps, applyOp, hok, Option.isNone_none, Bool.true_and]
    simp at h2
    exact ⟨h1, by simp [h2]; omega⟩


/-- C1: the scan of `place()` visits loop coordinates with `x` outermost and
`z` innermost, so its flat scan index does NOT follow the formula
`x + y*sizeX + z*sizeX*sizeY` used by `setCell`.  On a 2 x 2 x 1 grid the
cell written by `setBlock(7, 1, 0, 0)` lands at flat index 1, but the scan
visits flat index 1 at loop coordinates (0, 1, 0): the single emitted
instance of type 7 gets position (0, 1, 0) instead of (1, 0, 0).  The loop
coordinates (1, 0, 0) instead come third in visit order (scan index 2). -/
theorem c1_scan_index_mismatch :
    (create sC1).map (fun r => r.writes) = .ok [⟨7, 0, 0, 1, 0⟩] ∧
    getSchematicLocation (mkGrid 2 2 1) 1 0 0 = 1 ∧
    allPositions 2 2 1 = [(0, 0, 0), (0, 1, 0), (1, 0, 0), (1, 1, 0)] :=
  ⟨rfl, rfl, rfl⟩

/-- C2: a write of type 0 does NOT leave the occurrence-count map unchanged:
the unguarded `set(type, get(type)! + 1)` inserts the entry `0 -> NaN`
(`undefined + 1`), for `setBlock` and `pushBlock` alike, even though the map
held no entry for 0 before. -/
theorem c2_type_zero_counted_nan :
    (setBlock (mkGrid 1 1 1) 0 0 0 0).1.blockCounts = [(0, JsNum.nan)] ∧
    (pushBlock (mkGrid 1 1 1) 0).1.blockCounts = [(0, JsNum.nan)] ∧
    amGet (mkGrid 1 1 1).blockCounts 0 = none ∧
    (setBlock (mkGrid 1 1 1) 0 0 0 0).1.blockCounts ≠ (mkGrid 1 1 1).blockCounts := by
  refine ⟨rfl, rfl, rfl, ?_⟩
  decide

/-- C3: the switch of `unwrapUVs` has no case for the key "sides" (only
"side"), so "sides" falls into the empty `default` branch: the mapping
`[("sides", 0)]` produces the all-midpoint fallback table, identical to what
a plainly unrecognized key produces, and different from what "side"
produces. -/
theorem c3_sides_key_ignored :
    uvTableEq (uvTableOf (unwrapUVs 1 [(5, [("sides", 0)])] 5))
      (List.replicate 48 ⟨1, 2⟩) = true ∧
    unwrapUVs 1 [(5, [("sides", 0)])] 5 = unwrapUVs 1 [(5, [("notAFaceKey", 0)])] 5 ∧
    uvTableEq (uvTableOf (unwrapUVs 1 [(5, [("side", 0)])] 5))
      (uvTableOf (unwrapUVs 1 [(5, [("sides", 0)])] 5)) = false := by
  refine ⟨by decide, rfl, by decide⟩

/-- C4: from a fresh grid, `sizeX*sizeY*sizeZ + 1` appends all succeed (the
strictly-greater capacity check lets the array reach capacity + 1 elements)
and the next append fails with the capacity error. -/
theorem c4_append_capacity (sx sy sz : Nat) (ts : List Nat) (t : Nat)
    (h : ts.length = sx * sy * sz + 1) :
    (runOps (mkGrid sx sy sz) (ts.map Op.push)).2 = true ∧
    (runOps (mkGrid sx sy sz) (ts.map Op.push)).1.schematic.length = sx * sy * sz + 1 ∧
    (pushBlock (runOps (mkGrid sx sy sz) (ts.map Op.push)).1 t).2 =
      some "Schematic is full!" := by
  have e1 : (mkGrid sx sy sz).schematic.length = 0 := rfl
  have e2 : (mkGrid sx sy sz).sizeX = sx := rfl
  have e3 : (mkGrid sx sy sz).sizeY = sy := rfl
  have e4 : (mkGrid sx sy sz).sizeZ = sz := rfl
  have hrun := runOps_pushes ts (mkGrid sx sy sz) (by rw [e1, e2, e3, e4]; omega)
  obtain ⟨h1, h2⟩ := hrun
  rw [e1] at h2
  obtain ⟨g1, g2, g3⟩ := runOps_sizes (ts.map Op.push) (mkGrid sx sy sz)
  refine ⟨h1, by omega, ?_⟩
  have hfail := pushBlock_fail (runOps (mkGrid sx sy sz) (ts.map Op.push)).1 t
    (by rw [g1, g2, g3, e2, e3, e4, h2]; omega)
  rw [hfail]

/-- Witness for C4 at a 1 x 1 x 1 grid with two appends of type 2. -/
theorem c4_append_capacity_witness :
    (runOps (mkGrid 1 1 1) ([2, 2].map Op.push)).2 = true ∧
    (runOps (mkGrid 1 1 1) ([2, 2].map Op.push)).1.schematic.length = 1 * 1 * 1 + 1 ∧
    (pushBlock (runOps (mkGrid 1 1 1) ([2, 2].map Op.push)).1 2).2 =
      some "Schematic is full!" :=
  c4_append_capacity 1 1 1 [2, 2] 2 (by decide)

/-- C5 counterexample: the third append of type 5 to a capacity-1 grid fails
with the capacity error, yet the occurrence-count map is NOT as it was
before the failed call — the count of type 5 was already bumped from 2 to 3
before the check. -/
theorem c5_counterexample :
    (pushBlock sC5 5).2 = some "Schematic is full!" ∧
    (pushBlock sC5 5).1.blockCounts ≠ sC5.blockCounts ∧
    sC5.blockCounts = [(5, JsNum.num 2)] ∧
    (pushBlock sC5 5).1.blockCounts = [(5, JsNum.num 3)] := by
  refine ⟨rfl, ?_, rfl, rfl⟩
  decide

/-- C5 amended: when `appendCell` fails with the capacity error, the flat
cell array is unchanged, but the occurrence-count map has already received
the count increment for the call's type (the same count-then-check order as
the out-of-bounds path of `setCell`). -/
theorem c5_fail_effects (s : Schematic) (t : Nat) (e : String)
    (h : (pushBlock s t).2 = some e) :
    (pushBlock s t).1.schematic = s.schematic ∧
    (pushBlock s t).1.blockCounts = countBlock s.blockCounts t := by
  by_cases hc : s.sizeX * s.sizeY * s.sizeZ < s.schematic.length
  · rw [pushBlock_fail s t hc]
    exact ⟨rfl, rfl⟩
  · rw [pushBlock_ok s t (by omega)] at h
    exact absurd h (by simp)

/-- Witness for C5's amended theorem at the concrete failing third append. -/
theorem c5_fail_effects_witness :
    (pushBlock sC5 5).1.schematic = sC5.schematic ∧
    (pushBlock sC5 5).1.blockCounts = countBlock sC5.blockCounts 5 :=
  c5_fail_effects sC5 5 "Schematic is full!" rfl

/-- C7: for any block type whose face-mapping entry is
`{"top": 0, "side": 1}` and tileCount 4, `unwrapUVs` produces exactly the
table `c7Expected`: top slot from tile 0 and the four vertical slots from
tile 1 by the formulas `u0 = (tile+1)/4 + 1e-5`, `u1 = (tile+2)/4 - 1e-5`
in vertex order `(u1,1), (u0,1), (u1,0), (u0,0)`, and all 8 bottom-slot
floats equal to the midpoint `0.5`. -/
theorem c7_top_side_table (bt : Nat) (dict : List (Nat × List (String × Nat)))
    (h : amGet dict bt = some [("top", 0), ("side", 1)]) :
    uvTableEq (uvTableOf (unwrapUVs 4 dict bt)) c7Expected = true := by
  unfold unwrapUVs
  rw [h]
  decide

/-- Witness for C7 at block type 5 in a one-entry dictionary. -/
theorem c7_top_side_table_witness :
    uvTableEq (uvTableOf (unwrapUVs 4 [(5, [("top", 0), ("side", 1)])] 5)) c7Expected =
      true :=
  c7_top_side_table 5 [(5, [("top", 0), ("side", 1)])] rfl

/-- C10: the texture presence check of `create` treats every falsy field as
absent: it throws "Texture data is not set!" after `setTextureData` with
tile count 0, after `setTextureData` with an empty atlas string, and when
`setTextureData` was never called. -/
theorem c10_falsy_texture_check (s : Schematic) (td : String) (n : Nat)
    (d : List (Nat × List (String × Nat))) :
    create (setTextureData s td 0 d) = .error "Texture data is not set!" ∧
    create (setTextureData s "" n d) = .error "Texture data is not set!" ∧
    create (mkGrid 1 1 1) = .error "Texture data is not set!" := by
  refine ⟨?_, ?_, rfl⟩ <;> simp [create, setTextureData, jsFalsyNum, jsFalsyStr]

/-!
Lemmas about the association-list `Map` model and the counting prologue.
-/

/-- Lookup after the in-place update done by `amSet` when the key exists. -/
theorem find?_map_update {α : Type} (m : List (Nat × α)) (k : Nat) (v : α) :
    (m.map fun p => if p.1 == k then (k, v) else p).find? (fun p => p.1 == k) =
      (m.find? fun p => p.1 == k).map (fun _ => (k, v)) := by
  induction m with
  | nil => rfl
  | cons p m ih =>
    by_cases h : p.1 = k
    · have hh : (if (p.1 == k) = true then (k, v) else p) = (k, v) := by simp [h]
      simp only [List.map_cons, hh]
      rw [List.find?_cons_of_pos _ (by simp), List.find?_cons_of_pos _ (by simp [h])]
      simp
    · have hh : (if (p.1 == k) = true then (k, v) else p) = p := by simp [h]
      simp only [List.map_cons, hh]
      rw [List.find?_cons_of_neg _ (by simp [h]), List.find?_cons_of_neg _ (by simp [h])]
      exact ih

/-- Lookup of a different key is unaffected by the in-place update. -/
theorem find?_map_update_ne {α : Type} (m : List (Nat × α)) (k k' : Nat) (v : α)
    (h : k' ≠ k) :
    (m.map fun p => if p.1 == k then (k, v) else p).find? (fun p => p.1 == k') =
      m.find? (fun p => p.1 == k') := by
  induction m with
  | nil => rfl
  | cons p m ih =>
    by_cases hp : p.1 = k
    · have hh : (if (p.1 == k) = true then (k, v) else p) = (k, v) := by simp [hp]
      simp only [List.map_cons, hh]
      rw [List.find?_cons_of_neg _ (by simp [Ne.symm h]),
        List.find?_cons_of_neg _ (by simp [hp, Ne.symm h])]
      exact ih
    · have hh : (if (p.1 == k) = true then (k, v) else p) = p := by simp [hp]
      simp only [List.map_cons, hh]
      by_cases hp' : p.1 = k'
      · rw [List.find?_cons_of_pos _ (by simp [hp']), List.find?_cons_of_pos _ (by simp [hp'])]
      · rw [List.find?_cons_of_neg _ (by simp [hp']), List.find?_cons_of_neg _ (by simp [hp'])]
        exact ih

/-- `Map.get` after `Map.set` of the same key. -/
theorem amGet_amSet_self {α : Type} (m : List (Nat × α)) (k : Nat) (v : α) :
    amGet (amSet m k v) k = some v := by
  unfold amSet
  by_cases h : amHas m k
  · rw [if_pos h]
    unfold amGet
    rw [find?_map_update]
    unfold amHas at h
    cases hf : m.find? (fun p => p.1 == k) with
    | none => rw [hf] at h; simp at h
    | some p => simp
  · rw [if_neg h]
    unfold amGet at *
    unfold amHas at h
    rw [List.find?_append]
    cases hf : m.find? (fun p => p.1 == k) with
    | none => simp
    | some p => rw [hf] at h; simp at h

/-- `Map.get` of a different key after `Map.set`. -/
theorem amGet_amSet_ne {α : Type} (m : List (Nat × α)) (k k' : Nat) (v : α)
    (h : k' ≠ k) :
    amGet (amSet m k v) k' = amGet m k' := by
  unfold amSet
  by_cases hh : amHas m k
  · rw [if_pos hh]
    unfold amGet
    rw [find?_map_update_ne m k k' v h]
  · rw [if_neg hh]
    unfold amGet
    rw [List.find?_append]
    cases hf : m.find? (fun p => p.1 == k') with
    | none => simp [Ne.symm h]
    | some p => simp

/-- `Map.has` holds exactly when `Map.get` finds a value. -/
theorem amHas_eq_isSome {α : Type} (m : List (Nat × α)) (k : Nat) :
    amHas m k = (amGet m k).isSome := by
  unfold amHas amGet
  cases m.find? (fun p => p.1 == k) <;> rfl

/-- Counting a type that the map does not know yet (nonzero): the entry is
lazily initialized to 0 and then bumped to 1. -/
theorem countBlock_get_new (m : List (Nat × JsNum)) (t : Nat) (ht : t ≠ 0)
    (h : amGet m t = none) :
    amGet (countBlock m t) t = some (JsNum.num 1) := by
  unfold countBlock
  have hhas : amHas m t = false := by rw [amHas_eq_isSome, h]; rfl
  have ht' : (t != 0) = true := by simp [ht]
  rw [hhas, ht']
  simp only [Bool.not_false, Bool.and_self, if_pos]
  rw [amGet_amSet_self, amGet_amSet_self]
  rfl

/-- Counting a type whose current count is the number `k`: bumped to
`k + 1`. -/
theorem countBlock_get_num (m : List (Nat × JsNum)) (t : Nat) (k : Nat)
    (h : amGet m t = some (JsNum.num k)) :
    amGet (countBlock m t) t = some (JsNum.num (k + 1)) := by
  unfold countBlock
  have hhas : amHas m t = true := by rw [amHas_eq_isSome, h]; rfl
  rw [hhas]
  simp only [Bool.not_true, Bool.false_and, if_neg Bool.false_ne_true]
  rw [amGet_amSet_self, h]
  rfl

/-- Counting one type leaves the lookup of any other type unchanged. -/
theorem countBlock_get_other (m : List (Nat × JsNum)) (u t : Nat) (h : u ≠ t) :
    amGet (countBlock m u) t = amGet m t := by
  unfold countBlock
  by_cases hc : (!amHas m u && u != 0) = true
  · rw [if_pos hc, amGet_amSet_ne _ _ _ _ (Ne.symm h), amGet_amSet_ne _ _ _ _ (Ne.symm h)]
  · rw [if_neg hc, amGet_amSet_ne _ _ _ _ (Ne.symm h)]

/-- First component of an unfolded run step. -/
theorem runOps_cons_fst (s : Schematic) (op : Op) (rest : List Op) :
    (runOps s (op :: rest)).1 = (runOps (applyOp s op).1 rest).1 :=
  rfl

/-- Both mutations update `blockCounts` through the same counting prologue,
whether or not they throw. -/
theorem applyOp_blockCounts (s : Schematic) (op : Op) :
    (applyOp s op).1.blockCounts = countBlock s.blockCounts (opType op) := by
  cases op <;> simp only [applyOp, opType, setBlock, pushBlock] <;> split <;> rfl

/-- A run starting from a numeric count `k` for type `t` ends with the count
`k` plus the number of operations of type `t` in the run. -/
theorem runOps_count_num (t : Nat) :
    ∀ (ops : List Op) (s : Schematic) (k : Nat),
      amGet s.blockCounts t = some (JsNum.num k) →
      amGet (runOps s ops).1.blockCounts t = some (JsNum.num (k + cntOps ops t)) := by
  intro ops
  induction ops with
  | nil => intro s k h; simpa [runOps, cntOps] using h
  | cons op rest ih =>
    intro s k h
    by_cases hu : opType op = t
    · have h1 : amGet (applyOp s op).1.blockCounts t = some (JsNum.num (k + 1)) := by
        rw [applyOp_blockCounts, hu]
        exact countBlock_get_num _ _ _ h
      have h2 := ih (applyOp s op).1 (k + 1) h1
      have hc : cntOps (op :: rest) t = cntOps rest t + 1 := by
        unfold cntOps
        rw [List.countP_cons]
        simp [hu]
      rw [runOps_cons_fst, h2, hc]
      have harith : k + 1 + cntOps rest t = k + (cntOps rest t + 1) := by omega
      rw [harith]
    · have h1 : amGet (applyOp s op).1.blockCounts t = some (JsNum.num k) := by
        rw [applyOp_blockCounts, countBlock_get_other _ _ _ hu]
        exact h
      have h2 := ih (applyOp s op).1 k h1
      have hc : cntOps (op :: rest) t = cntOps rest t := by
        unfold cntOps
        rw [List.countP_cons]
        simp [hu]
      rw [runOps_cons_fst, h2, hc]

/-- A run starting with no entry for a nonzero type `t` ends with no entry
when the run contains no operation of type `t`, and with a numeric count
equal to the number of such operations otherwise. -/
theorem runOps_count_none (t : Nat) (ht : t ≠ 0) :
    ∀ (ops : List Op) (s : Schematic),
      amGet s.blockCounts t = none →
      amGet (runOps s ops).1.blockCounts t =
        if cntOps ops t = 0 then none else some (JsNum.num (cntOps ops t)) := by
  intro ops
  induction ops with
  | nil => intro s h; simpa [runOps, cntOps] using h
  | cons op rest ih =>
    intro s h
    by_cases hu : opType op = t
    · have h1 : amGet (applyOp s op).1.blockCounts t = some (JsNum.num 1) := by
        rw [applyOp_blockCounts, hu]
        exact countBlock_get_new _ _ ht h
      have h2 := runOps_count_num t rest (applyOp s op).1 1 h1
      have hc : cntOps (op :: rest) t = cntOps rest t + 1 := by
        unfold cntOps
        rw [List.countP_cons]
        simp [hu]
      rw [runOps_cons_fst, h2, hc, if_neg (by omega)]
      have harith : 1 + cntOps rest t = cntOps rest t + 1 := by omega
      rw [harith]
    · have h1 : amGet (applyOp s op).1.blockCounts t = none := by
        rw [applyOp_blockCounts, countBlock_get_other _ _ _ hu]
        exact h
      have h2 := ih (applyOp s op).1 h1
      have hc : cntOps (op :: rest) t = cntOps rest t := by
        unfold cntOps
        rw [List.countP_cons]
        simp [hu]
      rw [runOps_cons_fst, h2, hc]

/-- C6: after any all-successful run of `setBlock`/`pushBlock` calls from a
fresh grid, the occurrence count of every nonzero type `t` equals the number
of calls whose type argument was `t` (absent when that number is 0) —
overwrites included, and the overwritten prior type's count is never
decremented. -/
theorem c6_counts_track_ops (sx sy sz : Nat) (ops : List Op) (t : Nat) (ht : t ≠ 0)
    (_hs : (runOps (mkGrid sx sy sz) ops).2 = true) :
    amGet (runOps (mkGrid sx sy sz) ops).1.blockCounts t =
      if cntOps ops t = 0 then none else some (JsNum.num (cntOps ops t)) :=
  runOps_count_none t ht ops (mkGrid sx sy sz) rfl

/-- Witness for C6: `appendCell(4)` then `setCell(7, 0, 0, 0)` on a 1 x 1 x 1
grid overwrites the single cell holding 4 with 7, and 4 still counts 1. -/
theorem c6_counts_track_ops_witness :
    amGet (runOps (mkGrid 1 1 1) [Op.push 4, Op.set 7 0 0 0]).1.blockCounts 4 =
      if cntOps [Op.push 4, Op.set 7 0 0 0] 4 = 0 then none
      else some (JsNum.num (cntOps [Op.push 4, Op.set 7 0 0 0] 4)) :=
  c6_counts_track_ops 1 1 1 [Op.push 4, Op.set 7 0 0 0] 4 (by decide) (by decide)

/-- Indexing the dictionary with a type that has no entry makes `unwrapUVs`
throw the `TypeError` of `Object.keys(undefined)`. -/
theorem unwrapUVs_missing (tc : Nat) (dict : List (Nat × List (String × Nat))) (t : Nat)
    (h : amGet dict t = none) :
    unwrapUVs tc dict t = .error "TypeError: Cannot convert undefined to object" := by
  unfold unwrapUVs
  rw [h]

/-- A present-but-empty entry makes `unwrapUVs` return `undefined`
(no table). -/
theorem unwrapUVs_empty (tc : Nat) (dict : List (Nat × List (String × Nat))) (t : Nat)
    (h : amGet dict t = some []) :
    unwrapUVs tc dict t = .ok none := by
  unfold unwrapUVs
  rw [h]
  exact if_pos rfl

/-- If any scanned type lacks a dictionary entry, the UV-collection loop
throws. -/
theorem collectUVs_error (tc : Nat) (dict : List (Nat × List (String × Nat))) (t : Nat)
    (hA : amGet dict t = none) :
    ∀ keys : List Nat, t ∈ keys → ∃ e, collectUVs tc dict keys = .error e := by
  intro keys
  induction keys with
  | nil => intro h; cases h
  | cons k rest ih =>
    intro hmem
    by_cases hk : k = t
    · subst hk
      refine ⟨"TypeError: Cannot convert undefined to object", ?_⟩
      unfold collectUVs
      rw [unwrapUVs_missing tc dict k hA]
    · have hmem' : t ∈ rest := by
        rcases List.mem_cons.mp hmem with h | h
        · exact absurd h.symm hk
        · exact h
      obtain ⟨e, he⟩ := ih hmem'
      unfold collectUVs
      cases hu : unwrapUVs tc dict k with
      | error e2 => exact ⟨e2, rfl⟩
      | ok o =>
        cases o with
        | none => exact ⟨e, he⟩
        | some uv => exact ⟨e, by rw [he]⟩

/-- If every scanned type has a dictionary entry, the UV-collection loop
succeeds, and a type whose entry is empty gets no `typeToUV` record. -/
theorem collectUVs_ok_skip (tc : Nat) (dict : List (Nat × List (String × Nat))) (t : Nat)
    (hskip : unwrapUVs tc dict t = .ok none) :
    ∀ keys : List Nat, (∀ u ∈ keys, (amGet dict u).isSome) →
      ∃ m, collectUVs tc dict keys = .ok m ∧ amGet m t = none := by
  intro keys
  induction keys with
  | nil => exact fun _ => ⟨[], rfl, rfl⟩
  | cons k rest ih =>
    intro hall
    obtain ⟨m, hm, hmt⟩ := ih (fun u hu => hall u (List.mem_cons_of_mem _ hu))
    have hk := hall k (List.mem_cons_self _ _)
    cases hdk : amGet dict k with
    | none => rw [hdk] at hk; cases hk
    | some entry =>
      by_cases hlen : entry.length = 0
      · have hu : unwrapUVs tc dict k = .ok none := by
          unfold unwrapUVs
          rw [hdk]
          exact if_pos hlen
        refine ⟨m, ?_, hmt⟩
        unfold collectUVs
        rw [hu]
        exact hm
      · have hu : unwrapUVs tc dict k =
            .ok (some ((entry.foldl (fun acc kv => applyKey tc acc kv.1 kv.2)
              (List.replicate 48 ⟨-1, 1⟩)).map
                fun q => if fracEq q ⟨-1, 1⟩ then ⟨1, 2⟩ else q)) := by
          unfold unwrapUVs
          rw [hdk]
          exact if_neg hlen
        have hkt : k ≠ t := by
          intro h
          subst h
          rw [hskip] at hu
          cases hu
        refine ⟨(k, (entry.foldl (fun acc kv => applyKey tc acc kv.1 kv.2)
            (List.replicate 48 ⟨-1, 1⟩)).map
              fun q => if fracEq q ⟨-1, 1⟩ then ⟨1, 2⟩ else q) :: m, ?_, ?_⟩
        · unfold collectUVs
          rw [hu, hm]
        · unfold amGet
          rw [List.find?_cons_of_neg _ (by simp [hkt])]
          exact hmt

/-- A type with no `typeToUV` record gets no batch. -/
theorem batchesOfUV_not_mem (s : Schematic) (m : List (Nat × List Frac)) (t : Nat)
    (hm : amGet m t = none) :
    ∀ b ∈ batchesOfUV s m, b.btype ≠ t := by
  intro b hb
  obtain ⟨u, _, hf⟩ := List.mem_filterMap.mp hb
  cases hg : amGet m u with
  | none => rw [hg] at hf; cases hf
  | some uv =>
    rw [hg] at hf
    have hbu : b.btype = u := by
      cases hf
      rfl
    intro hbt
    rw [hbu] at hbt
    subst hbt
    rw [hg] at hm
    cases hm

/-- C8: with the texture presence check satisfied and a nonzero type `t`
present in the occurrence counts, `place()` throws when the face-mapping
dictionary has no entry at all for `t` (the `TypeError` of
`Object.keys(undefined)`), whereas a present-but-empty entry is skipped
without error and simply emits no batch for `t`. -/
theorem c8_dict_entry_handling (s : Schematic) (t tc : Nat) (td : String)
    (dict : List (Nat × List (String × Nat)))
    (_ht : t ≠ 0)
    (hc : s.textureCount = some tc) (hc0 : tc ≠ 0)
    (hd : s.textureData = some td) (hd0 : td ≠ "")
    (hdict : s.textureDictionary = some dict)
    (hmem : t ∈ keysOf s) :
    (amGet dict t = none → isErr (create s) = true) ∧
    (amGet dict t = some [] → (∀ u ∈ keysOf s, (amGet dict u).isSome) →
      isErr (create s) = false ∧
        (batchesOf (create s)).all (fun b => b.btype != t) = true) := by
  have hb1 : (tc == 0) = false := by simpa using hc0
  have hb2 : (td == "") = false := by simpa using hd0
  have hcr : create s =
      match collectUVs tc dict (keysOf s) with
      | .error e => .error e
      | .ok typeToUV => .ok ⟨batchesOfUV s typeToUV, scanOf s typeToUV⟩ := by
    unfold create
    rw [hc, hd, hdict]
    simp only [jsFalsyNum, jsFalsyStr, Option.isNone_some, hb1, hb2, Bool.or_self,
      Bool.or_false, Option.getD_some]
    rw [if_neg (by simp)]
  constructor
  · intro hA
    obtain ⟨e, he⟩ := collectUVs_error tc dict t hA (keysOf s) hmem
    rw [hcr, he]
    rfl
  · intro hB hall
    have hskip := unwrapUVs_empty tc dict t hB
    obtain ⟨m, hm, hmt⟩ := collectUVs_ok_skip tc dict t hskip (keysOf s) hall
    rw [hcr, hm]
    refine ⟨rfl, ?_⟩
    have hnb := batchesOfUV_not_mem s m t hmt
    simp only [batchesOf, List.all_eq_true]
    intro b hb
    simpa using hnb b hb

/-- Witness for C8: type 3 appended once; `sW8a` has no dictionary entry for
3 (throws), `sW8b` has the empty entry (no error, no batch). -/
theorem c8_dict_entry_handling_witness :
    isErr (create sW8a) = true ∧
    (isErr (create sW8b) = false ∧
      (batchesOf (create sW8b)).all (fun b => b.btype != 3) = true) :=
  ⟨(c8_dict_entry_handling sW8a 3 1 "x" [] (by decide) rfl (by decide) rfl (by decide)
      rfl (by decide)).1 rfl,
   (c8_dict_entry_handling sW8b 3 1 "x" [(3, [])] (by decide) rfl (by decide) rfl
      (by decide) rfl (by decide)).2 rfl (by decide)⟩

/-!
Cell-count invariant for claim C9: for a nonzero type, the occurrence count
is always a number that bounds the number of cells holding the type.
-/

/-- A cell write adds at most one cell of any type. -/
theorem countCells_jsArrayWrite_le (t : Nat) (l : List (Option Nat)) (i u : Nat) :
    countCells t (jsArrayWrite l i u) ≤ countCells t l + 1 := by
  unfold jsArrayWrite countCells
  by_cases hi : i < l.length
  · rw [if_pos hi, List.count_set (some u) (some t) l i hi]
    split_ifs <;> omega
  · rw [if_neg hi, List.count_append, List.count_append, List.count_replicate]
    have hrep : ((none : Option Nat) == some t) = false := rfl
    simp only [hrep, Bool.false_eq_true, if_false, List.count_cons, List.count_nil]
    split_ifs <;> omega

/-- A cell write of a different type never adds a cell of type `t`. -/
theorem countCells_jsArrayWrite_ne (t : Nat) (l : List (Option Nat)) (i u : Nat)
    (h : u ≠ t) :
    countCells t (jsArrayWrite l i u) ≤ countCells t l := by
  unfold jsArrayWrite countCells
  have hne : ((some u : Option Nat) == some t) = false := by simp [h]
  by_cases hi : i < l.length
  · rw [if_pos hi, List.count_set (some u) (some t) l i hi]
    simp only [hne, Bool.false_eq_true, if_false]
    split_ifs <;> omega
  · rw [if_neg hi, List.count_append, List.count_append, List.count_replicate]
    have hrep : ((none : Option Nat) == some t) = false := rfl
    simp only [hrep, hne, Bool.false_eq_true, if_false, List.count_cons, List.count_nil]
    omega

/-- An append adds at most one cell of any type, and none of type `t` when
the appended type differs. -/
theorem countCells_append_single (t u : Nat) (l : List (Option Nat)) :
    countCells t (l ++ [some u]) = countCells t l + (if u = t then 1 else 0) := by
  unfold countCells
  rw [List.count_append]
  simp only [List.count_cons, List.count_nil]
  by_cases h : u = t <;> simp [h]

/-- One operation grows the cell count of `t` by at most one. -/
theorem applyOp_countCells_le (t : Nat) (s : Schematic) (op : Op) :
    countCells t (applyOp s op).1.schematic ≤ countCells t s.schematic + 1 := by
  cases op with
  | set ty x y z =>
    simp only [applyOp, setBlock]
    split
    · exact Nat.le_succ_of_le (Nat.le_refl _)
    · exact countCells_jsArrayWrite_le t s.schematic _ ty
  | push ty =>
    simp only [applyOp, pushBlock]
    split
    · exact Nat.le_succ_of_le (Nat.le_refl _)
    · rw [countCells_append_single]
      split_ifs <;> omega

/-- An operation of a different type never grows the cell count of `t`. -/
theorem applyOp_countCells_ne (t : Nat) (s : Schematic) (op : Op)
    (h : opType op ≠ t) :
    countCells t (applyOp s op).1.schematic ≤ countCells t s.schematic := by
  cases op with
  | set ty x y z =>
    simp only [opType] at h
    simp only [applyOp, setBlock]
    split
    · exact Nat.le_refl _
    · exact countCells_jsArrayWrite_ne t s.schematic _ ty h
  | push ty =>
    simp only [opType] at h
    simp only [applyOp, pushBlock]
    split
    · exact Nat.le_refl _
    · rw [countCells_append_single, if_neg h]
      omega

/-- One operation preserves the cell-count invariant of a nonzero type. -/
theorem applyOp_CellInv (t : Nat) (ht : t ≠ 0) (s : Schematic) (op : Op)
    (h : CellInv t s) : CellInv t (applyOp s op).1 := by
  unfold CellInv at *
  by_cases hu : opType op = t
  · cases hg : amGet s.blockCounts t with
    | none =>
      rw [hg] at h
      have hget : amGet (applyOp s op).1.blockCounts t = some (JsNum.num 1) := by
        rw [applyOp_blockCounts, hu]
        exact countBlock_get_new _ _ ht hg
      rw [hget]
      have := applyOp_countCells_le t s op
      omega
    | some v =>
      cases v with
      | nan => rw [hg] at h; cases h
      | num k =>
        rw [hg] at h
        have hget : amGet (applyOp s op).1.blockCounts t = some (JsNum.num (k + 1)) := by
          rw [applyOp_blockCounts, hu]
          exact countBlock_get_num _ _ _ hg
        rw [hget]
        have := applyOp_countCells_le t s op
        omega
  · have hget : amGet (applyOp s op).1.blockCounts t = amGet s.blockCounts t := by
      rw [applyOp_blockCounts]
      exact countBlock_get_other _ _ _ hu
    rw [hget]
    have hle := applyOp_countCells_ne t s op hu
    cases hg : amGet s.blockCounts t with
    | none => rw [hg] at h; omega
    | some v =>
      cases v with
      | nan => rw [hg] at h; cases h
      | num k => rw [hg] at h; omega

/-- The cell-count invariant holds along every run from any state that
satisfies it. -/
theorem runOps_CellInv (t : Nat) (ht : t ≠ 0) :
    ∀ (ops : List Op) (s : Schematic), CellInv t s → CellInv t (runOps s ops).1 := by
  intro ops
  induction ops with
  | nil => intro s h; exact h
  | cons op rest ih =>
    intro s h
    rw [runOps_cons_fst]
    exact ih (applyOp s op).1 (applyOp_CellInv t ht s op h)

/-- The fresh grid satisfies the cell-count invariant. -/
theorem mkGrid_CellInv (t : Nat) (sx sy sz : Nat) : CellInv t (mkGrid sx sy sz) := by
  unfold CellInv mkGrid
  rfl

/-- `setTextureData` changes neither counts nor cells. -/
theorem setTextureData_counts_cells (s : Schematic) (td : String) (tc : Nat)
    (dict : List (Nat × List (String × Nat))) :
    (setTextureData s td tc dict).blockCounts = s.blockCounts ∧
      (setTextureData s td tc dict).schematic = s.schematic :=
  ⟨rfl, rfl⟩

/-- Slots written by the scan for type `t` stay below the starting slot
counter plus the number of scanned cells holding `t`. -/
theorem scanGo_slot_lt (em : Nat → Bool) (t : Nat) :
    ∀ (pairs : List (Option Nat × Nat × Nat × Nat)) (bi : List (Nat × Nat))
      (ws : List ScanWrite),
      (∀ w ∈ ws, w.btype = t → w.slot < (amGet bi t).getD 0) →
      ∀ w ∈ scanGo em pairs bi ws, w.btype = t →
        w.slot < (amGet bi t).getD 0 + countCells t (pairs.map Prod.fst) := by
  intro pairs
  induction pairs with
  | nil =>
    intro bi ws hws w hw hwt
    have := hws w hw hwt
    simp only [List.map_nil, countCells, List.count_nil]
    omega
  | cons p rest ih =>
    obtain ⟨cell, px, py, pz⟩ := p
    intro bi ws hws w hw hwt
    cases cell with
    | none =>
      simp only [scanGo] at hw
      have := ih bi ws hws w hw hwt
      simp only [List.map_cons, countCells, List.count_cons] at *
      omega
    | some v =>
      by_cases hem : em v = true
      · simp only [scanGo, hem, if_true] at hw
        by_cases hv : v = t
        · subst hv
          have hset : (amGet (amSet bi v ((amGet bi v).getD 0 + 1)) v).getD 0 =
              (amGet bi v).getD 0 + 1 := by
            rw [amGet_amSet_self]
            rfl
          have hpre : ∀ w2 ∈ ws ++ [⟨v, (amGet bi v).getD 0, px, py, pz⟩],
              w2.btype = v → w2.slot <
                (amGet (amSet bi v ((amGet bi v).getD 0 + 1)) v).getD 0 := by
            intro w2 hw2 hw2t
            rw [hset]
            rcases List.mem_append.mp hw2 with h2 | h2
            · have := hws w2 h2 hw2t
              omega
            · rcases List.mem_singleton.mp h2 with rfl
              simp
          have := ih _ _ hpre w hw hwt
          rw [hset] at this
          simp only [List.map_cons, countCells, List.count_cons] at *
          simp only [beq_self_eq_true, if_true] at *
          omega
        · have hget : (amGet (amSet bi v ((amGet bi v).getD 0 + 1)) t).getD 0 =
              (amGet bi t).getD 0 := by
            rw [amGet_amSet_ne _ _ _ _ (fun h => hv h.symm)]
          have hpre : ∀ w2 ∈ ws ++ [⟨v, (amGet bi v).getD 0, px, py, pz⟩],
              w2.btype = t → w2.slot <
                (amGet (amSet bi v ((amGet bi v).getD 0 + 1)) t).getD 0 := by
            intro w2 hw2 hw2t
            rw [hget]
            rcases List.mem_append.mp hw2 with h2 | h2
            · exact hws w2 h2 hw2t
            · rcases List.mem_singleton.mp h2 with rfl
              exact absurd hw2t hv
          have := ih _ _ hpre w hw hwt
          rw [hget] at this
          have hcell : ((some v : Option Nat) == some t) = false := by simp [hv]
          simp only [List.map_cons, countCells, List.count_cons, hcell,
            Bool.false_eq_true, if_false] at *
          omega
      · simp only [scanGo, hem, if_false] at hw
        have := ih bi ws hws w hw hwt
        simp only [List.map_cons, countCells, List.count_cons] at *
        split_ifs at * <;> omega

/-- The cells the scan reads are the first `n` array entries padded with
`undefined`. -/
theorem range_map_getD (l : List (Option Nat)) :
    ∀ n : Nat, (List.range n).map (fun i => l.getD i none) =
      l.take n ++ List.replicate (n - l.length) none := by
  intro n
  induction n with
  | zero => simp
  | succ n ih =>
    rw [List.range_succ, List.map_append, ih]
    by_cases h : n < l.length
    · have h1 : n - l.length = 0 := by omega
      have h2 : n + 1 - l.length = 0 := by omega
      rw [h1, h2]
      simp only [List.replicate, List.map_cons, List.map_nil, List.append_nil]
      rw [List.take_succ, List.getD_eq_getElem?_getD, List.getElem?_eq_getElem h]
      rfl
    · have hlen : l.length ≤ n := by omega
      simp only [List.map_cons, List.map_nil]
      rw [List.take_of_length_le hlen, List.take_of_length_le (by omega),
        List.getD_eq_default l none hlen]
      have h3 : n + 1 - l.length = (n - l.length) + 1 := by omega
      rw [h3, List.replicate_succ']
      simp

/-- The scan reads at most as many cells of type `t` as the array holds. -/
theorem cellsOf_count_le (t : Nat) (s : Schematic) :
    countCells t (cellsOf s) ≤ countCells t s.schematic := by
  unfold cellsOf countCells
  rw [range_map_getD]
  rw [List.count_append]
  have h0 : List.count (some t)
      (List.replicate (s.sizeX * s.sizeY * s.sizeZ - s.schematic.length)
        (none : Option Nat)) = 0 := by
    rw [List.count_replicate]
    rfl
  have h1 := List.Sublist.count_le
    (List.take_sublist (s.sizeX * s.sizeY * s.sizeZ) s.schematic) (some t)
  omega

/-- The scan visits exactly `sizeX * sizeY * sizeZ` loop positions. -/
theorem length_allPositions (sx sy sz : Nat) :
    (allPositions sx sy sz).length = sx * sy * sz := by
  simp [allPositions, List.length_flatMap, Function.comp_def, List.map_const',
    Nat.mul_assoc]

/-- Inversion of a successful `create`: some collected `typeToUV` map
produced the batches and the scan writes. -/
theorem create_ok_elim (s : Schematic) (r : PlaceResult)
    (hok : create s = .ok r) :
    ∃ u, r.batches = batchesOfUV s u ∧ r.writes = scanOf s u := by
  unfold create at hok
  split at hok
  · cases hok
  · split at hok
    · cases hok
    · cases hok
      exact ⟨_, rfl, rfl⟩

/-- A key of the map has a value. -/
theorem amGet_isSome_of_mem_keys {α : Type} (m : List (Nat × α)) (t : Nat)
    (h : t ∈ m.map Prod.fst) : (amGet m t).isSome := by
  induction m with
  | nil => cases h
  | cons p m ih =>
    by_cases hp : p.1 = t
    · unfold amGet
      rw [List.find?_cons_of_pos _ (by simp [hp])]
      rfl
    · unfold amGet
      rw [List.find?_cons_of_neg _ (by simp [hp])]
      apply ih
      simp only [List.map_cons, List.mem_cons] at h
      rcases h with h | h
      · exact absurd h.symm hp
      · exact h

/-- Every emitted batch carries the occurrence-count value of its type as
instance count, and its type is one of the count-map keys. -/
theorem batchesOfUV_mem_count (s : Schematic) (u : List (Nat × List Frac))
    (b : Batch) (hb : b ∈ batchesOfUV s u) :
    b.count = (amGet s.blockCounts b.btype).getD (JsNum.num 0) ∧
      b.btype ∈ keysOf s := by
  obtain ⟨x, hx, hf⟩ := List.mem_filterMap.mp hb
  cases hg : amGet u x with
  | none => rw [hg] at hf; cases hf
  | some uv =>
    rw [hg] at hf
    cases hf
    exact ⟨rfl, hx⟩

/-- Every transform write of the scan for type `t` targets a slot strictly
below the number of cells of the array holding `t`. -/
theorem scanOf_slot_lt (s : Schematic) (u : List (Nat × List Frac)) (t : Nat)
    (w : ScanWrite) (hw : w ∈ scanOf s u) (hwt : w.btype = t) :
    w.slot < countCells t s.schematic := by
  have hlen : (cellsOf s).length ≤ (allPositions s.sizeX s.sizeY s.sizeZ).length := by
    rw [length_allPositions]
    unfold cellsOf
    rw [List.length_map, List.length_range]
  have hmap : ((cellsOf s).zip (allPositions s.sizeX s.sizeY s.sizeZ)).map Prod.fst =
      cellsOf s :=
    List.map_fst_zip _ _ hlen
  have hb := scanGo_slot_lt (fun ty => (amGet u ty).isSome) t
    ((cellsOf s).zip (allPositions s.sizeX s.sizeY s.sizeZ)) [] []
    (by intro w2 hw2; cases hw2) w hw hwt
  rw [hmap] at hb
  have hc := cellsOf_count_le t s
  have : (amGet ([] : List (Nat × Nat)) t).getD 0 = 0 := rfl
  omega

/-- C9 counterexample: `pushBlock(0)` leaves the count entry `0 -> NaN`; the
dictionary maps type 0 on all faces, so `place()` emits a batch for type 0
whose instance count is `NaN` and writes a transform for it at slot 0 — and
the JavaScript comparison `0 < NaN` is false, so this write is NOT at a slot
strictly below the batch's instance count. -/
theorem c9_counterexample :
    (create sC9).map (fun r =>
        (r.batches.map fun b => (b.btype, b.count),
          r.writes.map fun w => (w.btype, w.slot))) =
      .ok ([(0, JsNum.nan)], [(0, 0)]) ∧
    jsSlotOk 0 JsNum.nan = false :=
  ⟨rfl, rfl⟩

/-- C9 (amended to nonzero types): in any grid built through the public API,
for every nonzero type `t`, every batch emitted for `t` has a numeric
(non-NaN) instance count that is at least the number of cells holding `t`,
and every transform write for `t` targets a slot strictly below that
count. -/
theorem c9_slot_safety (sx sy sz : Nat) (ops : List Op) (td : String) (tc : Nat)
    (dict : List (Nat × List (String × Nat))) (r : PlaceResult) (t : Nat)
    (ht : t ≠ 0)
    (hok : create (builtGrid sx sy sz ops td tc dict) = .ok r) :
    (∀ b ∈ r.batches, b.btype = t →
        jsLeNum (countCells t (builtGrid sx sy sz ops td tc dict).schematic) b.count =
          true) ∧
    (∀ w ∈ r.writes, w.btype = t → ∀ b ∈ r.batches, b.btype = t →
        jsSlotOk w.slot b.count = true) := by
  obtain ⟨u, hbat, hwr⟩ := create_ok_elim _ r hok
  have hinv : CellInv t (builtGrid sx sy sz ops td tc dict) := by
    unfold builtGrid
    show CellInv t (setTextureData (runOps (mkGrid sx sy sz) ops).1 td tc dict)
    unfold CellInv
    have e1 : (setTextureData (runOps (mkGrid sx sy sz) ops).1 td tc
        dict).blockCounts = (runOps (mkGrid sx sy sz) ops).1.blockCounts := rfl
    have e2 : (setTextureData (runOps (mkGrid sx sy sz) ops).1 td tc
        dict).schematic = (runOps (mkGrid sx sy sz) ops).1.schematic := rfl
    rw [e1, e2]
    have := runOps_CellInv t ht ops (mkGrid sx sy sz) (mkGrid_CellInv t sx sy sz)
    unfold CellInv at this
    exact this
  have hcount : ∀ b ∈ r.batches, b.btype = t →
      ∃ k, b.count = JsNum.num k ∧
        countCells t (builtGrid sx sy sz ops td tc dict).schematic ≤ k := by
    intro b hb hbt
    rw [hbat] at hb
    obtain ⟨hcnt, hmem⟩ := batchesOfUV_mem_count _ u b hb
    have hsome := amGet_isSome_of_mem_keys _ _ hmem
    unfold CellInv at hinv
    rw [hbt] at hcnt hsome
    cases hg : amGet (builtGrid sx sy sz ops td tc dict).blockCounts t with
    | none => rw [hg] at hsome; cases hsome
    | some v =>
      cases v with
      | nan => rw [hg] at hinv; cases hinv
      | num k =>
        rw [hg] at hinv hcnt
        exact ⟨k, by rw [hcnt]; rfl, hinv⟩
  constructor
  · intro b hb hbt
    obtain ⟨k, hk, hle⟩ := hcount b hb hbt
    rw [hk]
    simpa [jsLeNum] using hle
  · intro w hw hwt b hb hbt
    obtain ⟨k, hk, hle⟩ := hcount b hb hbt
    rw [hwr] at hw
    have hslot := scanOf_slot_lt _ u t w hw hwt
    rw [hk]
    simp only [jsSlotOk]
    simp only [decide_eq_true_eq]
    omega

/-- Witness for C9's amended theorem: one append of type 5 on a 1 x 1 x 1
grid, all faces mapped; the single batch counts 1 instance and the single
write targets slot 0. -/
theorem c9_slot_safety_witness :
    jsLeNum (countCells 5 sW9.schematic)
        (⟨5, JsNum.num 1, uvTableOf (unwrapUVs 1 [(5, [("all", 0)])] 5)⟩ : Batch).count =
      true ∧
    jsSlotOk (⟨5, 0, 0, 0, 0⟩ : ScanWrite).slot
        (⟨5, JsNum.num 1, uvTableOf (unwrapUVs 1 [(5, [("all", 0)])] 5)⟩ : Batch).count =
      true := by
  have h := c9_slot_safety 1 1 1 [Op.push 5] "x" 1 [(5, [("all", 0)])] rW9 5
    (by decide) (by rfl)
  exact ⟨h.1 ⟨5, JsNum.num 1, uvTableOf (unwrapUVs 1 [(5, [("all", 0)])] 5)⟩
      (by rw [show rW9.batches = [⟨5, JsNum.num 1,
        uvTableOf (unwrapUVs 1 [(5, [("all", 0)])] 5)⟩] from rfl]; exact List.mem_singleton.mpr rfl) rfl,
    h.2 ⟨5, 0, 0, 0, 0⟩
      (by rw [show rW9.writes = [⟨5, 0, 0, 0, 0⟩] from rfl]; exact List.mem_singleton.mpr rfl) rfl
      ⟨5, JsNum.num 1, uvTableOf (unwrapUVs 1 [(5, [("all", 0)])] 5)⟩
      (by rw [show rW9.batches = [⟨5, JsNum.num 1,
        uvTableOf (unwrapUVs 1 [(5, [("all", 0)])] 5)⟩] from rfl]; exact List.mem_singleton.mpr rfl) rfl⟩
